import Mathlib

/-!
Shallow embedding of `cert_verifier/connectors.py`: connectors that look up
a Bitcoin transaction on a third-party blockchain-explorer API and normalise
the provider's JSON response into a canonical `TransactionData`.

Modelling conventions:
* Python `dict.get` on optional JSON fields is an `Option` field on a record;
  `d[k]` on a possibly missing key raises `KeyError`, modelled as `PyErr.keyError`.
* Python JSON numbers read with `float(...)` are modelled as `Rat`;
  the ones read with `int(...)` (blockchain.info satoshi values) as `Int`.
* A Python `set()` accumulating `.add` calls is modelled as a duplicate-free
  list (`pySetAdd`); provider A and B insert `o.get(...)`, which may be
  Python `None`, so the element type is `Option String`.
* Exceptions are modelled with `Except PyErr`; a `raise InvalidTransactionError`
  is `PyErr.invalidTransaction`, a bare `raise Exception` is `PyErr.exception`,
  and the untyped runtime failures `TypeError` / `IndexError` / `KeyError`
  that the code can hit are the remaining constructors.
* `logging.error` calls have no observable effect on the returned value and
  are not modelled.
-/

namespace CertVerifier

/-- Network enumeration from the external `cert_core.Chain`. The connectors
compare against `mainnet` and `testnet`; `regtest` stands for any further
member of the external enum, keeping the connectors' unsupported-chain
branches reachable. -/
inductive Chain
  | mainnet
  | testnet
  | regtest
deriving DecidableEq, Repr

/-- Errors a connector call can surface: the typed `InvalidTransactionError`
from `cert_verifier.errors`, the generic `Exception` raised on an unsupported
chain, and the untyped Python runtime errors reachable in `parse_tx`. -/
inductive PyErr
  | invalidTransaction (msg : String)
  | exception (msg : String)
  | typeError
  | indexError
  | keyError (key : String)
deriving DecidableEq, Repr

/-- Canonical result of a lookup (`cert_verifier.TransactionData`): the set of
revoked addresses and the embedded op_return script. Provider A and B can
insert Python `None` into the set, hence `Option String` elements. -/
structure TransactionData where
  revoked_addresses : List (Option String)
  script : String
deriving DecidableEq, Repr

/-- Python `set.add`: appends the element unless it is already present. -/
def pySetAdd (s : List (Option String)) (x : Option String) : List (Option String) :=
  if x ∈ s then s else s ++ [x]

/-- Truthiness of `o.get(key)` for a boolean JSON field: `None` and `False`
are falsy. -/
def truthyOptBool : Option Bool → Bool
  | none => false
  | some b => b

/-- Truthiness of `o.get(key)` for a string JSON field: `None` and the empty
string are falsy. -/
def truthyOptStr : Option String → Bool
  | none => false
  | some s => s != ""

/-- Truthiness of `o.get(key)` for a numeric JSON field: `None` and `0` are
falsy. -/
def truthyOptRat : Option Rat → Bool
  | none => false
  | some x => x != 0

/-- Returns whether a parse result is the typed `InvalidTransactionError`. -/
def isInvalidTransaction : Except PyErr TransactionData → Bool
  | .error (.invalidTransaction _) => true
  | _ => false

/-- Returns whether a parse result is a successful `TransactionData`. -/
def isOk : Except PyErr TransactionData → Bool
  | .ok _ => true
  | _ => false

/-- State of the output-scanning loop shared by all three `parse_tx`
implementations: the `revoked` set built so far and the optional `script`. -/
abbrev LoopState := List (Option String) × Option String

/-- An HTTP response as seen by `fetch_tx`: a status code and the result of
decoding the body as JSON (decoding failure propagates untyped). -/
structure HttpResponse (J : Type) where
  status_code : Nat
  json : Except PyErr J

/-- TransactionLookupConnector.fetch_tx: any status code other than 200 logs
and raises `InvalidTransactionError` carrying the transaction id; on 200 the
JSON-decoded body is returned. -/
def fetch_tx {J : Type} (txid : String) (r : HttpResponse J) : Except PyErr J :=
  if r.status_code ≠ 200 then
    .error (.invalidTransaction ("error looking up transaction_id=" ++ txid))
  else
    r.json

/-- Epilogue shared verbatim by the three `parse_tx` methods: propagate a
loop failure, raise `InvalidTransactionError` when `script` is unset (Python
`not script`, which is also true for an empty string), and otherwise build
the `TransactionData`. -/
def finishParse (r : Except PyErr LoopState) : Except PyErr TransactionData :=
  match r with
  | .error e => .error e
  | .ok st =>
    match st.2 with
    | none => .error (.invalidTransaction "transaction response is missing op_return script")
    | some s =>
      if s = "" then
        .error (.invalidTransaction "transaction response is missing op_return script")
      else
        .ok ⟨st.1, s⟩

/-- Rendering of a `cert_core.Chain` value inside a Python format string
(used by the unsupported-chain error messages). -/
def chainStr : Chain → String
  | .mainnet => "Chain.mainnet"
  | .testnet => "Chain.testnet"
  | .regtest => "Chain.regtest"

/-- One output record of a blockchain.info (provider A) response: the fields
`parse_tx` touches, each optional because it is read with `.get` (or, for
`script`, may be missing and raise `KeyError`). -/
structure AOut where
  value : Option Int
  script : Option String
  spent : Option Bool
  addr : Option String
deriving DecidableEq, Repr

/-- A blockchain.info response: the `out` list. -/
structure AResp where
  out : List AOut
deriving DecidableEq, Repr

/-- The `extras` object of a blockr.io output. -/
structure BExtras where
  script : Option String
deriving DecidableEq, Repr

/-- One output record of a blockr.io (provider B) response. -/
structure BOut where
  amount : Option Rat
  extras : Option BExtras
  is_spent : Option Rat
  address : Option String
deriving DecidableEq, Repr

/-- The `data` object of a blockr.io response: the `vouts` list. -/
structure BData where
  vouts : List BOut
deriving DecidableEq, Repr

/-- A blockr.io response. -/
structure BResp where
  data : BData
deriving DecidableEq, Repr

/-- One output record of a blockcypher (provider C) response. -/
structure COut where
  value : Option Rat
  data_hex : Option String
  spent_by : Option String
  addresses : Option (List String)
deriving DecidableEq, Repr

/-- A blockcypher response: the `outputs` list. -/
structure CResp where
  outputs : List COut
deriving DecidableEq, Repr

namespace BlockchainInfoConnector

/-- BlockchainInfoConnector.__init__: only mainnet is supported; any other
chain raises a generic `Exception` at construction time. On success the
connector's URL template is fixed. -/
def init (chain : Chain) : Except PyErr String :=
  if chain ≠ Chain.mainnet then
    .error (.exception "only mainnet chain is supported with blockchain.info collector")
  else
    .ok "https://blockchain.info/rawtx/%s?cors=true"

/-- The zero-value test `int(o.get('value', 1)) == 0` of provider A. -/
def isZero (o : AOut) : Bool := o.value.getD 1 = 0

/-- Body of provider A's loop over `json_response['out']`: a zero-value
output overwrites `script` with `o['script'][4:]`; otherwise a truthy
`spent` flag adds `o.get('addr')` to `revoked`. -/
def step (st : LoopState) (o : AOut) : Except PyErr LoopState :=
  if o.value.getD 1 = 0 then
    match o.script with
    | none => .error (.keyError "script")
    | some s => .ok (st.1, some (s.drop 4))
  else
    if truthyOptBool o.spent then .ok (pySetAdd st.1 o.addr, st.2) else .ok st

/-- The `for o in json_response['out']` loop of provider A. -/
def loop : LoopState → List AOut → Except PyErr LoopState
  | st, [] => .ok st
  | st, o :: rest =>
    match step st o with
    | .error e => .error e
    | .ok st' => loop st' rest

/-- BlockchainInfoConnector.parse_tx: scan the outputs, then fail with
`InvalidTransactionError` when `script` is still unset (or empty, since
Python `not script` is also true for an empty string). -/
def parse_tx (resp : AResp) : Except PyErr TransactionData :=
  finishParse (loop ([], none) resp.out)

end BlockchainInfoConnector

namespace BlockrIOConnector

/-- BlockrIOConnector.__init__: testnet and mainnet fix distinct URL
templates; any other chain raises a generic `Exception`. -/
def init (chain : Chain) : Except PyErr String :=
  match chain with
  | .testnet => .ok "https://tbtc.blockr.io/api/v1/tx/info/%s"
  | .mainnet => .ok "https://btc.blockr.io/api/v1/tx/info/%s"
  | c =>
    .error (.exception ("unsupported chain (" ++ chainStr c ++ ") requested with BlockrIO collector. Currently only testnet and mainnet are supported"))

/-- The zero-value test `float(o.get('amount', 1)) == 0` of provider B. -/
def isZero (o : BOut) : Bool := o.amount.getD 1 = 0

/-- Provider B's spent test `o.get('is_spent') and float(o.get('is_spent', 1)) == 49`:
the field must be truthy and numerically equal to 49. -/
def spentCheck (o : BOut) : Bool :=
  truthyOptRat o.is_spent && (o.is_spent.getD 1 = 49)

/-- Body of provider B's loop over `json_response['data']['vouts']`: a
zero-amount output overwrites `script` with `o['extras']['script'][4:]`;
otherwise the spent test adds `o.get('address')` to `revoked`. -/
def step (st : LoopState) (o : BOut) : Except PyErr LoopState :=
  if o.amount.getD 1 = 0 then
    match o.extras with
    | none => .error (.keyError "extras")
    | some ex =>
      match ex.script with
      | none => .error (.keyError "script")
      | some s => .ok (st.1, some (s.drop 4))
  else
    if spentCheck o then .ok (pySetAdd st.1 o.address, st.2) else .ok st

/-- The `for o in json_response['data']['vouts']` loop of provider B. -/
def loop : LoopState → List BOut → Except PyErr LoopState
  | st, [] => .ok st
  | st, o :: rest =>
    match step st o with
    | .error e => .error e
    | .ok st' => loop st' rest

/-- BlockrIOConnector.parse_tx. -/
def parse_tx (resp : BResp) : Except PyErr TransactionData :=
  finishParse (loop ([], none) resp.data.vouts)

end BlockrIOConnector

namespace BlockcypherConnector

/-- BlockcypherConnector.__init__: testnet and mainnet fix distinct URL
templates; any other chain raises a generic `Exception`. -/
def init (chain : Chain) : Except PyErr String :=
  match chain with
  | .testnet => .ok "http://api.blockcypher.com/v1/btc/test3/txs/%s?limit=100"
  | .mainnet => .ok "https://api.blockcypher.com/v1/btc/main/txs/%s?limit=100"
  | c =>
    .error (.exception ("unsupported chain (" ++ chainStr c ++ ") requested with blockcypher collector. Currently only testnet and mainnet are supported"))

/-- The zero-value test `float(o.get('value', 1)) == 0` of provider C. -/
def isZero (o : COut) : Bool := o.value.getD 1 = 0

/-- Body of provider C's loop over `json_response['outputs']`: a zero-value
output overwrites `script` with `o['data_hex']` (no prefix stripped);
otherwise a truthy `spent_by` adds `o.get('addresses')[0]` to `revoked`,
which hits `TypeError` when `addresses` is missing (`None[0]`) and
`IndexError` when it is an empty list. -/
def step (st : LoopState) (o : COut) : Except PyErr LoopState :=
  if o.value.getD 1 = 0 then
    match o.data_hex with
    | none => .error (.keyError "data_hex")
    | some s => .ok (st.1, some s)
  else
    if truthyOptStr o.spent_by then
      match o.addresses with
      | none => .error .typeError
      | some [] => .error .indexError
      | some (a :: _) => .ok (pySetAdd st.1 (some a), st.2)
    else
      .ok st

/-- The `for o in json_response['outputs']` loop of provider C. -/
def loop : LoopState → List COut → Except PyErr LoopState
  | st, [] => .ok st
  | st, o :: rest =>
    match step st o with
    | .error e => .error e
    | .ok st' => loop st' rest

/-- BlockcypherConnector.parse_tx. -/
def parse_tx (resp : CResp) : Except PyErr TransactionData :=
  finishParse (loop ([], none) resp.outputs)

end BlockcypherConnector

/-- A connector object: the only instance state any of the three classes
ever assigns is the URL template fixed by `__init__`. -/
structure Connector where
  url : String
deriving DecidableEq, Repr

/-- Provider A's `parse_tx` as a method call threading the receiver: the
method body never reads or assigns a `self` attribute, so the receiver
comes back unchanged. -/
def methodParseA (self : Connector) (resp : AResp) :
    Except PyErr TransactionData × Connector :=
  (BlockchainInfoConnector.parse_tx resp, self)

/-- Provider B's `parse_tx` as a method call threading the receiver. -/
def methodParseB (self : Connector) (resp : BResp) :
    Except PyErr TransactionData × Connector :=
  (BlockrIOConnector.parse_tx resp, self)

/-- Provider C's `parse_tx` as a method call threading the receiver. -/
def methodParseC (self : Connector) (resp : CResp) :
    Except PyErr TransactionData × Connector :=
  (BlockcypherConnector.parse_tx resp, self)

/-- createTransactionLookupConnector: the factory always builds a
`BlockrIOConnector` for the requested chain (default chain in the source is
mainnet). -/
def createTransactionLookupConnector (chain : Chain) : Except PyErr String :=
  BlockrIOConnector.init chain

end CertVerifier

namespace CertVerifier

/-- Membership in the modelled Python set after an `add`. -/
theorem mem_pySetAdd (s : List (Option String)) (a x : Option String) :
    x ∈ pySetAdd s a ↔ x ∈ s ∨ x = a := by
  unfold pySetAdd
  by_cases h : a ∈ s
  · simp only [if_pos h]
    constructor
    · exact Or.inl
    · rintro (hx | rfl)
      · exact hx
      · exact h
  · simp [if_neg h, List.mem_append]

/-- Case analysis of provider A's loop body. -/
theorem AStep_cases (st : LoopState) (o : AOut) :
    (o.value.getD 1 = 0 ∧
      ((o.script = none ∧ BlockchainInfoConnector.step st o = .error (.keyError "script")) ∨
       ∃ s, o.script = some s ∧
         BlockchainInfoConnector.step st o = .ok (st.1, some (s.drop 4)))) ∨
    (¬ o.value.getD 1 = 0 ∧
      ((truthyOptBool o.spent = true ∧
         BlockchainInfoConnector.step st o = .ok (pySetAdd st.1 o.addr, st.2)) ∨
       (truthyOptBool o.spent = false ∧ BlockchainInfoConnector.step st o = .ok st))) := by
  unfold BlockchainInfoConnector.step
  by_cases hz : o.value.getD 1 = 0
  · refine Or.inl ⟨hz, ?_⟩
    rw [if_pos hz]
    cases hsc : o.script with
    | none => exact Or.inl ⟨rfl, rfl⟩
    | some s => exact Or.inr ⟨s, rfl, rfl⟩
  · refine Or.inr ⟨hz, ?_⟩
    rw [if_neg hz]
    cases hsp : truthyOptBool o.spent with
    | false => simp
    | true => simp

/-- If provider A's loop succeeds, membership in the final `revoked` set is
membership in the initial set or witnessing a non-zero-value output with a
truthy `spent` flag and matching `addr`. -/
theorem ALoop_revoked_mem (outs : List AOut) :
    ∀ st st', BlockchainInfoConnector.loop st outs = .ok st' →
    ∀ x, x ∈ st'.1 ↔ x ∈ st.1 ∨
      ∃ o ∈ outs, ¬ o.value.getD 1 = 0 ∧ truthyOptBool o.spent = true ∧ o.addr = x := by
  induction outs with
  | nil =>
    intro st st' h x
    unfold BlockchainInfoConnector.loop at h
    injection h with h
    subst h
    simp
  | cons o rest ih =>
    intro st st' h x
    unfold BlockchainInfoConnector.loop at h
    rcases AStep_cases st o with ⟨hz, hcase⟩ | ⟨hz, hcase⟩
    · rcases hcase with ⟨hsc, hstep⟩ | ⟨s, hsc, hstep⟩
      · rw [hstep] at h
        cases h
      · rw [hstep] at h
        rw [ih _ _ h x]
        simp only [List.mem_cons]
        constructor
        · rintro (hx | ⟨o', ho', hc⟩)
          · exact Or.inl hx
          · exact Or.inr ⟨o', Or.inr ho', hc⟩
        · rintro (hx | ⟨o', ho' | ho', hc⟩)
          · exact Or.inl hx
          · subst ho'
            exact absurd hz hc.1
          · exact Or.inr ⟨o', ho', hc⟩
    · rcases hcase with ⟨hsp, hstep⟩ | ⟨hsp, hstep⟩
      · rw [hstep] at h
        rw [ih _ _ h x]
        simp only [mem_pySetAdd, List.mem_cons]
        constructor
        · rintro ((hx | rfl) | ⟨o', ho', hc⟩)
          · exact Or.inl hx
          · exact Or.inr ⟨o, Or.inl rfl, hz, hsp, rfl⟩
          · exact Or.inr ⟨o', Or.inr ho', hc⟩
        · rintro (hx | ⟨o', ho' | ho', hc⟩)
          · exact Or.inl (Or.inl hx)
          · subst ho'
            exact Or.inl (Or.inr hc.2.2.symm)
          · exact Or.inr ⟨o', ho', hc⟩
      · rw [hstep] at h
        rw [ih _ _ h x]
        simp only [List.mem_cons]
        constructor
        · rintro (hx | ⟨o', ho', hc⟩)
          · exact Or.inl hx
          · exact Or.inr ⟨o', Or.inr ho', hc⟩
        · rintro (hx | ⟨o', ho' | ho', hc⟩)
          · exact Or.inl hx
          · subst ho'
            rw [hc.2.1] at hsp
            cases hsp
          · exact Or.inr ⟨o', ho', hc⟩

/-- If provider A's loop succeeds, the final `script` state comes from the
last zero-value output (or is the initial state when there is none). -/
theorem ALoop_script_last (outs : List AOut) :
    ∀ st st', BlockchainInfoConnector.loop st outs = .ok st' →
      (outs.filter BlockchainInfoConnector.isZero = [] ∧ st'.2 = st.2) ∨
      ∃ o s, (outs.filter BlockchainInfoConnector.isZero).getLast? = some o ∧
        o.script = some s ∧ st'.2 = some (s.drop 4) := by
  induction outs with
  | nil =>
    intro st st' h
    unfold BlockchainInfoConnector.loop at h
    injection h with h
    subst h
    exact Or.inl ⟨rfl, rfl⟩
  | cons o rest ih =>
    intro st st' h
    unfold BlockchainInfoConnector.loop at h
    rcases AStep_cases st o with ⟨hz, hcase⟩ | ⟨hz, hcase⟩
    · have hfz : BlockchainInfoConnector.isZero o = true := by
        simp [BlockchainInfoConnector.isZero, hz]
      rcases hcase with ⟨hsc, hstep⟩ | ⟨s, hsc, hstep⟩
      · rw [hstep] at h
        cases h
      · rw [hstep] at h
        rcases ih _ _ h with ⟨hrest, h2⟩ | ⟨o', s', hlast, hsc', h2⟩
        · refine Or.inr ⟨o, s, ?_, hsc, h2⟩
          rw [List.filter_cons_of_pos hfz, hrest]
          rfl
        · refine Or.inr ⟨o', s', ?_, hsc', h2⟩
          rw [List.filter_cons_of_pos hfz]
          cases hfr : rest.filter BlockchainInfoConnector.isZero with
          | nil => rw [hfr] at hlast; cases hlast
          | cons b t => rw [hfr] at hlast; rw [List.getLast?_cons_cons, hlast]
    · have hfz : BlockchainInfoConnector.isZero o = false := by
        simp [BlockchainInfoConnector.isZero, hz]
      have hfilter : (o :: rest).filter BlockchainInfoConnector.isZero =
          rest.filter BlockchainInfoConnector.isZero :=
        List.filter_cons_of_neg (by simp [hfz])
      rcases hcase with ⟨hsp, hstep⟩ | ⟨hsp, hstep⟩
      · rw [hstep] at h
        rcases ih _ _ h with ⟨hrest, h2⟩ | ⟨o', s', hlast, hsc', h2⟩
        · exact Or.inl ⟨by rw [hfilter, hrest], h2⟩
        · exact Or.inr ⟨o', s', by rw [hfilter]; exact hlast, hsc', h2⟩
      · rw [hstep] at h
        rcases ih _ _ h with ⟨hrest, h2⟩ | ⟨o', s', hlast, hsc', h2⟩
        · exact Or.inl ⟨by rw [hfilter, hrest], h2⟩
        · exact Or.inr ⟨o', s', by rw [hfilter]; exact hlast, hsc', h2⟩

/-- Provider A's loop never fails when no output has a zero value. -/
theorem ALoop_ok_of_no_zero (outs : List AOut)
    (hnz : ∀ o ∈ outs, ¬ o.value.getD 1 = 0) :
    ∀ st, ∃ st', BlockchainInfoConnector.loop st outs = .ok st' := by
  induction outs with
  | nil => intro st; exact ⟨st, rfl⟩
  | cons o rest ih =>
    intro st
    have hz := hnz o (List.mem_cons_self o rest)
    rcases AStep_cases st o with ⟨hz', _⟩ | ⟨_, hcase⟩
    · exact absurd hz' hz
    · have ihr := ih (fun o' ho' => hnz o' (List.mem_cons_of_mem o ho'))
      rcases hcase with ⟨_, hstep⟩ | ⟨_, hstep⟩
      · obtain ⟨st', hst'⟩ := ihr (pySetAdd st.1 o.addr, st.2)
        exact ⟨st', by unfold BlockchainInfoConnector.loop; rw [hstep]; exact hst'⟩
      · obtain ⟨st', hst'⟩ := ihr st
        exact ⟨st', by unfold BlockchainInfoConnector.loop; rw [hstep]; exact hst'⟩

/-- Unfolding of the parse epilogue on success: the loop must have ended
with a non-empty script. -/
theorem finishParse_ok_iff (r : Except PyErr LoopState) (t : TransactionData) :
    finishParse r = .ok t ↔
      ∃ rv s, r = .ok (rv, some s) ∧ ¬ s = "" ∧ t = ⟨rv, s⟩ := by
  unfold finishParse
  cases r with
  | error e =>
    constructor
    · intro h; cases h
    · rintro ⟨rv, s, hok, _⟩; cases hok
  | ok st =>
    cases h2 : st.2 with
    | none =>
      simp only [h2]
      constructor
      · intro h; cases h
      · rintro ⟨rv, s, hok, _⟩
        injection hok with hok
        subst hok
        simp at h2
    | some s =>
      simp only [h2]
      by_cases hs : s = ""
      · rw [if_pos hs]
        constructor
        · intro h; cases h
        · rintro ⟨rv, s', hok, hs', ht⟩
          injection hok with hok
          subst hok
          simp at h2
          subst h2
          exact absurd hs hs'
      · rw [if_neg hs]
        constructor
        · intro h
          injection h with h
          refine ⟨st.1, s, ?_, hs, h.symm⟩
          rw [← h2, Prod.mk.eta]
        · rintro ⟨rv, s', hok, hs', ht⟩
          injection hok with hok
          subst hok
          subst ht
          simp at h2 ⊢
          exact h2.symm

/-- The parse epilogue propagates a loop error unchanged. -/
theorem finishParse_error (e : PyErr) : finishParse (.error e) = .error e := rfl

/-- The parse epilogue on a loop that ended with no script set. -/
theorem finishParse_none (rv : List (Option String)) :
    finishParse (.ok (rv, none)) =
      .error (.invalidTransaction "transaction response is missing op_return script") := rfl

/-- Case analysis of provider B's loop body. -/
theorem BStep_cases (st : LoopState) (o : BOut) :
    (o.amount.getD 1 = 0 ∧
      ((o.extras = none ∧ BlockrIOConnector.step st o = .error (.keyError "extras")) ∨
       (∃ ex, o.extras = some ex ∧ ex.script = none ∧
          BlockrIOConnector.step st o = .error (.keyError "script")) ∨
       (∃ ex s, o.extras = some ex ∧ ex.script = some s ∧
          BlockrIOConnector.step st o = .ok (st.1, some (s.drop 4))))) ∨
    (¬ o.amount.getD 1 = 0 ∧
      ((BlockrIOConnector.spentCheck o = true ∧
         BlockrIOConnector.step st o = .ok (pySetAdd st.1 o.address, st.2)) ∨
       (BlockrIOConnector.spentCheck o = false ∧ BlockrIOConnector.step st o = .ok st))) := by
  unfold BlockrIOConnector.step
  by_cases hz : o.amount.getD 1 = 0
  · refine Or.inl ⟨hz, ?_⟩
    rw [if_pos hz]
    cases hex : o.extras with
    | none => exact Or.inl ⟨rfl, rfl⟩
    | some ex =>
      cases hsc : ex.script with
      | none => exact Or.inr (Or.inl ⟨ex, rfl, hsc, by simp [hsc]⟩)
      | some s => exact Or.inr (Or.inr ⟨ex, s, rfl, hsc, by simp [hsc]⟩)
  · refine Or.inr ⟨hz, ?_⟩
    rw [if_neg hz]
    cases hsp : BlockrIOConnector.spentCheck o with
    | false => simp [hsp]
    | true => simp [hsp]

/-- If provider B's loop succeeds, membership in the final `revoked` set is
membership in the initial set or witnessing a non-zero-amount output passing
the spent test with matching `address`. -/
theorem BLoop_revoked_mem (outs : List BOut) :
    ∀ st st', BlockrIOConnector.loop st outs = .ok st' →
    ∀ x, x ∈ st'.1 ↔ x ∈ st.1 ∨
      ∃ o ∈ outs, ¬ o.amount.getD 1 = 0 ∧ BlockrIOConnector.spentCheck o = true ∧
        o.address = x := by
  induction outs with
  | nil =>
    intro st st' h x
    unfold BlockrIOConnector.loop at h
    injection h with h
    subst h
    simp
  | cons o rest ih =>
    intro st st' h x
    unfold BlockrIOConnector.loop at h
    rcases BStep_cases st o with ⟨hz, hcase⟩ | ⟨hz, hcase⟩
    · rcases hcase with ⟨_, hstep⟩ | ⟨ex, _, _, hstep⟩ | ⟨ex, s, _, _, hstep⟩
      · rw [hstep] at h; cases h
      · rw [hstep] at h; cases h
      · rw [hstep] at h
        rw [ih _ _ h x]
        simp only [List.mem_cons]
        constructor
        · rintro (hx | ⟨o', ho', hc⟩)
          · exact Or.inl hx
          · exact Or.inr ⟨o', Or.inr ho', hc⟩
        · rintro (hx | ⟨o', ho' | ho', hc⟩)
          · exact Or.inl hx
          · subst ho'
            exact absurd hz hc.1
          · exact Or.inr ⟨o', ho', hc⟩
    · rcases hcase with ⟨hsp, hstep⟩ | ⟨hsp, hstep⟩
      · rw [hstep] at h
        rw [ih _ _ h x]
        simp only [mem_pySetAdd, List.mem_cons]
        constructor
        · rintro ((hx | rfl) | ⟨o', ho', hc⟩)
          · exact Or.inl hx
          · exact Or.inr ⟨o, Or.inl rfl, hz, hsp, rfl⟩
          · exact Or.inr ⟨o', Or.inr ho', hc⟩
        · rintro (hx | ⟨o', ho' | ho', hc⟩)
          · exact Or.inl (Or.inl hx)
          · subst ho'
            exact Or.inl (Or.inr hc.2.2.symm)
          · exact Or.inr ⟨o', ho', hc⟩
      · rw [hstep] at h
        rw [ih _ _ h x]
        simp only [List.mem_cons]
        constructor
        · rintro (hx | ⟨o', ho', hc⟩)
          · exact Or.inl hx
          · exact Or.inr ⟨o', Or.inr ho', hc⟩
        · rintro (hx | ⟨o', ho' | ho', hc⟩)
          · exact Or.inl hx
          · subst ho'
            rw [hc.2.1] at hsp
            cases hsp
          · exact Or.inr ⟨o', ho', hc⟩

/-- If provider B's loop succeeds, the final `script` state comes from the
last zero-amount output (or is the initial state when there is none). -/
theorem BLoop_script_last (outs : List BOut) :
    ∀ st st', BlockrIOConnector.loop st outs = .ok st' →
      (outs.filter BlockrIOConnector.isZero = [] ∧ st'.2 = st.2) ∨
      ∃ o ex s, (outs.filter BlockrIOConnector.isZero).getLast? = some o ∧
        o.extras = some ex ∧ ex.script = some s ∧ st'.2 = some (s.drop 4) := by
  induction outs with
  | nil =>
    intro st st' h
    unfold BlockrIOConnector.loop at h
    injection h with h
    subst h
    exact Or.inl ⟨rfl, rfl⟩
  | cons o rest ih =>
    intro st st' h
    unfold BlockrIOConnector.loop at h
    rcases BStep_cases st o with ⟨hz, hcase⟩ | ⟨hz, hcase⟩
    · have hfz : BlockrIOConnector.isZero o = true := by
        simp [BlockrIOConnector.isZero, hz]
      rcases hcase with ⟨_, hstep⟩ | ⟨ex, _, _, hstep⟩ | ⟨ex, s, hex, hsc, hstep⟩
      · rw [hstep] at h; cases h
      · rw [hstep] at h; cases h
      · rw [hstep] at h
        rcases ih _ _ h with ⟨hrest, h2⟩ | ⟨o', ex', s', hlast, hex', hsc', h2⟩
        · refine Or.inr ⟨o, ex, s, ?_, hex, hsc, h2⟩
          rw [List.filter_cons_of_pos hfz, hrest]
          rfl
        · refine Or.inr ⟨o', ex', s', ?_, hex', hsc', h2⟩
          rw [List.filter_cons_of_pos hfz]
          cases hfr : rest.filter BlockrIOConnector.isZero with
          | nil => rw [hfr] at hlast; cases hlast
          | cons b t => rw [hfr] at hlast; rw [List.getLast?_cons_cons, hlast]
    · have hfz : BlockrIOConnector.isZero o = false := by
        simp [BlockrIOConnector.isZero, hz]
      have hfilter : (o :: rest).filter BlockrIOConnector.isZero =
          rest.filter BlockrIOConnector.isZero :=
        List.filter_cons_of_neg (by simp [hfz])
      rcases hcase with ⟨hsp, hstep⟩ | ⟨hsp, hstep⟩
      · rw [hstep] at h
        rcases ih _ _ h with ⟨hrest, h2⟩ | ⟨o', ex', s', hlast, hex', hsc', h2⟩
        · exact Or.inl ⟨by rw [hfilter, hrest], h2⟩
        · exact Or.inr ⟨o', ex', s', by rw [hfilter]; exact hlast, hex', hsc', h2⟩
      · rw [hstep] at h
        rcases ih _ _ h with ⟨hrest, h2⟩ | ⟨o', ex', s', hlast, hex', hsc', h2⟩
        · exact Or.inl ⟨by rw [hfilter, hrest], h2⟩
        · exact Or.inr ⟨o', ex', s', by rw [hfilter]; exact hlast, hex', hsc', h2⟩

/-- Provider B's loop never fails when no output has a zero amount. -/
theorem BLoop_ok_of_no_zero (outs : List BOut)
    (hnz : ∀ o ∈ outs, ¬ o.amount.getD 1 = 0) :
    ∀ st, ∃ st', BlockrIOConnector.loop st outs = .ok st' := by
  induction outs with
  | nil => intro st; exact ⟨st, rfl⟩
  | cons o rest ih =>
    intro st
    have hz := hnz o (List.mem_cons_self o rest)
    rcases BStep_cases st o with ⟨hz', _⟩ | ⟨_, hcase⟩
    · exact absurd hz' hz
    · have ihr := ih (fun o' ho' => hnz o' (List.mem_cons_of_mem o ho'))
      rcases hcase with ⟨_, hstep⟩ | ⟨_, hstep⟩
      · obtain ⟨st', hst'⟩ := ihr (pySetAdd st.1 o.address, st.2)
        exact ⟨st', by unfold BlockrIOConnector.loop; rw [hstep]; exact hst'⟩
      · obtain ⟨st', hst'⟩ := ihr st
        exact ⟨st', by unfold BlockrIOConnector.loop; rw [hstep]; exact hst'⟩

/-- Case analysis of provider C's loop body. -/
theorem CStep_cases (st : LoopState) (o : COut) :
    (o.value.getD 1 = 0 ∧
      ((o.data_hex = none ∧ BlockcypherConnector.step st o = .error (.keyError "data_hex")) ∨
       (∃ s, o.data_hex = some s ∧ BlockcypherConnector.step st o = .ok (st.1, some s)))) ∨
    (¬ o.value.getD 1 = 0 ∧
      ((truthyOptStr o.spent_by = true ∧
         ((o.addresses = none ∧ BlockcypherConnector.step st o = .error .typeError) ∨
          (o.addresses = some [] ∧ BlockcypherConnector.step st o = .error .indexError) ∨
          (∃ a tl, o.addresses = some (a :: tl) ∧
            BlockcypherConnector.step st o = .ok (pySetAdd st.1 (some a), st.2)))) ∨
       (truthyOptStr o.spent_by = false ∧ BlockcypherConnector.step st o = .ok st))) := by
  unfold BlockcypherConnector.step
  by_cases hz : o.value.getD 1 = 0
  · refine Or.inl ⟨hz, ?_⟩
    rw [if_pos hz]
    cases hdx : o.data_hex with
    | none => exact Or.inl ⟨rfl, rfl⟩
    | some s => exact Or.inr ⟨s, rfl, rfl⟩
  · refine Or.inr ⟨hz, ?_⟩
    rw [if_neg hz]
    cases hsp : truthyOptStr o.spent_by with
    | false => simp [hsp]
    | true =>
      refine Or.inl ⟨rfl, ?_⟩
      simp only [if_pos rfl]
      cases hva : o.addresses with
      | none => simp
      | some l =>
        cases l with
        | nil => simp
        | cons a tl => exact Or.inr (Or.inr ⟨a, tl, rfl, rfl⟩)

/-- If provider C's loop succeeds, membership in the final `revoked` set is
membership in the initial set or witnessing a non-zero-value output with a
truthy `spent_by` whose `addresses` list starts with the address. -/
theorem CLoop_revoked_mem (outs : List COut) :
    ∀ st st', BlockcypherConnector.loop st outs = .ok st' →
    ∀ x, x ∈ st'.1 ↔ x ∈ st.1 ∨
      ∃ o ∈ outs, ¬ o.value.getD 1 = 0 ∧ truthyOptStr o.spent_by = true ∧
        ∃ a tl, o.addresses = some (a :: tl) ∧ some a = x := by
  induction outs with
  | nil =>
    intro st st' h x
    unfold BlockcypherConnector.loop at h
    injection h with h
    subst h
    simp
  | cons o rest ih =>
    intro st st' h x
    unfold BlockcypherConnector.loop at h
    rcases CStep_cases st o with ⟨hz, hcase⟩ | ⟨hz, hcase⟩
    · rcases hcase with ⟨_, hstep⟩ | ⟨s, _, hstep⟩
      · rw [hstep] at h; cases h
      · rw [hstep] at h
        rw [ih _ _ h x]
        simp only [List.mem_cons]
        constructor
        · rintro (hx | ⟨o', ho', hc⟩)
          · exact Or.inl hx
          · exact Or.inr ⟨o', Or.inr ho', hc⟩
        · rintro (hx | ⟨o', ho' | ho', hc⟩)
          · exact Or.inl hx
          · subst ho'
            exact absurd hz hc.1
          · exact Or.inr ⟨o', ho', hc⟩
    · rcases hcase with ⟨hsp, hcase⟩ | ⟨hsp, hstep⟩
      · rcases hcase with ⟨_, hstep⟩ | ⟨_, hstep⟩ | ⟨a, tl, hadr, hstep⟩
        · rw [hstep] at h; cases h
        · rw [hstep] at h; cases h
        · rw [hstep] at h
          rw [ih _ _ h x]
          simp only [mem_pySetAdd, List.mem_cons]
          constructor
          · rintro ((hx | rfl) | ⟨o', ho', hc⟩)
            · exact Or.inl hx
            · exact Or.inr ⟨o, Or.inl rfl, hz, hsp, a, tl, hadr, rfl⟩
            · exact Or.inr ⟨o', Or.inr ho', hc⟩
          · rintro (hx | ⟨o', ho' | ho', hc⟩)
            · exact Or.inl (Or.inl hx)
            · subst ho'
              obtain ⟨a', tl', hadr', hx⟩ := hc.2.2
              rw [hadr] at hadr'
              injection hadr' with hadr'
              injection hadr' with h1 _
              subst h1
              exact Or.inl (Or.inr hx.symm)
            · exact Or.inr ⟨o', ho', hc⟩
      · rw [hstep] at h
        rw [ih _ _ h x]
        simp only [List.mem_cons]
        constructor
        · rintro (hx | ⟨o', ho', hc⟩)
          · exact Or.inl hx
          · exact Or.inr ⟨o', Or.inr ho', hc⟩
        · rintro (hx | ⟨o', ho' | ho', hc⟩)
          · exact Or.inl hx
          · subst ho'
            rw [hc.2.1] at hsp
            cases hsp
          · exact Or.inr ⟨o', ho', hc⟩

/-- If provider C's loop succeeds, the final `script` state is the
`data_hex` of the last zero-value output, with nothing stripped. -/
theorem CLoop_script_last (outs : List COut) :
    ∀ st st', BlockcypherConnector.loop st outs = .ok st' →
      (outs.filter BlockcypherConnector.isZero = [] ∧ st'.2 = st.2) ∨
      ∃ o s, (outs.filter BlockcypherConnector.isZero).getLast? = some o ∧
        o.data_hex = some s ∧ st'.2 = some s := by
  induction outs with
  | nil =>
    intro st st' h
    unfold BlockcypherConnector.loop at h
    injection h with h
    subst h
    exact Or.inl ⟨rfl, rfl⟩
  | cons o rest ih =>
    intro st st' h
    unfold BlockcypherConnector.loop at h
    rcases CStep_cases st o with ⟨hz, hcase⟩ | ⟨hz, hcase⟩
    · have hfz : BlockcypherConnector.isZero o = true := by
        simp [BlockcypherConnector.isZero, hz]
      rcases hcase with ⟨_, hstep⟩ | ⟨s, hdx, hstep⟩
      · rw [hstep] at h; cases h
      · rw [hstep] at h
        rcases ih _ _ h with ⟨hrest, h2⟩ | ⟨o', s', hlast, hdx', h2⟩
        · refine Or.inr ⟨o, s, ?_, hdx, h2⟩
          rw [List.filter_cons_of_pos hfz, hrest]
          rfl
        · refine Or.inr ⟨o', s', ?_, hdx', h2⟩
          rw [List.filter_cons_of_pos hfz]
          cases hfr : rest.filter BlockcypherConnector.isZero with
          | nil => rw [hfr] at hlast; cases hlast
          | cons b t => rw [hfr] at hlast; rw [List.getLast?_cons_cons, hlast]
    · have hfz : BlockcypherConnector.isZero o = false := by
        simp [BlockcypherConnector.isZero, hz]
      have hfilter : (o :: rest).filter BlockcypherConnector.isZero =
          rest.filter BlockcypherConnector.isZero :=
        List.filter_cons_of_neg (by simp [hfz])
      rcases hcase with ⟨hsp, hcase⟩ | ⟨hsp, hstep⟩
      · rcases hcase with ⟨_, hstep⟩ | ⟨_, hstep⟩ | ⟨a, tl, _, hstep⟩
        · rw [hstep] at h; cases h
        · rw [hstep] at h; cases h
        · rw [hstep] at h
          rcases ih _ _ h with ⟨hrest, h2⟩ | ⟨o', s', hlast, hdx', h2⟩
          · exact Or.inl ⟨by rw [hfilter, hrest], h2⟩
          · exact Or.inr ⟨o', s', by rw [hfilter]; exact hlast, hdx', h2⟩
      · rw [hstep] at h
        rcases ih _ _ h with ⟨hrest, h2⟩ | ⟨o', s', hlast, hdx', h2⟩
        · exact Or.inl ⟨by rw [hfilter, hrest], h2⟩
        · exact Or.inr ⟨o', s', by rw [hfilter]; exact hlast, hdx', h2⟩

/-- Every error provider C's loop itself produces is an untyped Python
runtime error, never `InvalidTransactionError`. -/
theorem CLoop_error_untyped (outs : List COut) :
    ∀ st e, BlockcypherConnector.loop st outs = .error e →
      e = .typeError ∨ e = .indexError ∨ ∃ k, e = .keyError k := by
  induction outs with
  | nil =>
    intro st e h
    cases h
  | cons o rest ih =>
    intro st e h
    unfold BlockcypherConnector.loop at h
    rcases CStep_cases st o with ⟨hz, hcase⟩ | ⟨hz, hcase⟩
    · rcases hcase with ⟨_, hstep⟩ | ⟨s, _, hstep⟩
      · rw [hstep] at h
        injection h with h
        subst h
        exact Or.inr (Or.inr ⟨"data_hex", rfl⟩)
      · rw [hstep] at h
        exact ih _ _ h
    · rcases hcase with ⟨hsp, hcase⟩ | ⟨hsp, hstep⟩
      · rcases hcase with ⟨_, hstep⟩ | ⟨_, hstep⟩ | ⟨a, tl, _, hstep⟩
        · rw [hstep] at h
          injection h with h
          subst h
          exact Or.inl rfl
        · rw [hstep] at h
          injection h with h
          subst h
          exact Or.inr (Or.inl rfl)
        · rw [hstep] at h
          exact ih _ _ h
      · rw [hstep] at h
        exact ih _ _ h

/-- If provider C's loop succeeds, every non-zero-value output with a truthy
`spent_by` had a non-empty `addresses` list. -/
theorem CLoop_ok_spent_addresses (outs : List COut) :
    ∀ st st', BlockcypherConnector.loop st outs = .ok st' →
      ∀ o ∈ outs, ¬ o.value.getD 1 = 0 → truthyOptStr o.spent_by = true →
        ∃ a tl, o.addresses = some (a :: tl) := by
  induction outs with
  | nil =>
    intro st st' _ o ho
    cases ho
  | cons o rest ih =>
    intro st st' h o' ho' hz' hsp'
    unfold BlockcypherConnector.loop at h
    rcases List.mem_cons.mp ho' with rfl | ho'
    · rcases CStep_cases st o' with ⟨hz, _⟩ | ⟨hz, hcase⟩
      · exact absurd hz hz'
      · rcases hcase with ⟨hsp, hcase⟩ | ⟨hsp, _⟩
        · rcases hcase with ⟨_, hstep⟩ | ⟨_, hstep⟩ | ⟨a, tl, hadr, _⟩
          · rw [hstep] at h; cases h
          · rw [hstep] at h; cases h
          · exact ⟨a, tl, hadr⟩
        · rw [hsp'] at hsp
          cases hsp
    · rcases CStep_cases st o with ⟨hz, hcase⟩ | ⟨hz, hcase⟩
      · rcases hcase with ⟨_, hstep⟩ | ⟨s, _, hstep⟩
        · rw [hstep] at h; cases h
        · rw [hstep] at h
          exact ih _ _ h o' ho' hz' hsp'
      · rcases hcase with ⟨hsp, hcase⟩ | ⟨hsp, hstep⟩
        · rcases hcase with ⟨_, hstep⟩ | ⟨_, hstep⟩ | ⟨a, tl, _, hstep⟩
          · rw [hstep] at h; cases h
          · rw [hstep] at h; cases h
          · rw [hstep] at h
            exact ih _ _ h o' ho' hz' hsp'
        · rw [hstep] at h
          exact ih _ _ h o' ho' hz' hsp'

/-- Provider C's loop succeeds when no output has a zero value and every
truthy-`spent_by` output carries a non-empty `addresses` list. -/
theorem CLoop_ok_of_no_zero (outs : List COut)
    (hnz : ∀ o ∈ outs, ¬ o.value.getD 1 = 0)
    (hgood : ∀ o ∈ outs, truthyOptStr o.spent_by = true →
      ∃ a tl, o.addresses = some (a :: tl)) :
    ∀ st, ∃ st', BlockcypherConnector.loop st outs = .ok st' := by
  induction outs with
  | nil => intro st; exact ⟨st, rfl⟩
  | cons o rest ih =>
    intro st
    have hz := hnz o (List.mem_cons_self o rest)
    have ihr := ih (fun o' ho' => hnz o' (List.mem_cons_of_mem o ho'))
      (fun o' ho' => hgood o' (List.mem_cons_of_mem o ho'))
    rcases CStep_cases st o with ⟨hz', _⟩ | ⟨_, hcase⟩
    · exact absurd hz' hz
    · rcases hcase with ⟨hsp, hcase⟩ | ⟨hsp, hstep⟩
      · rcases hcase with ⟨hadr, _⟩ | ⟨hadr, _⟩ | ⟨a, tl, hadr, hstep⟩
        · obtain ⟨a, tl, hadr'⟩ := hgood o (List.mem_cons_self o rest) hsp
          rw [hadr] at hadr'
          cases hadr'
        · obtain ⟨a, tl, hadr'⟩ := hgood o (List.mem_cons_self o rest) hsp
          rw [hadr] at hadr'
          injection hadr' with hadr'
          cases hadr'
        · obtain ⟨st', hst'⟩ := ihr (pySetAdd st.1 (some a), st.2)
          exact ⟨st', by unfold BlockcypherConnector.loop; rw [hstep]; exact hst'⟩
      · obtain ⟨st', hst'⟩ := ihr st
        exact ⟨st', by unfold BlockcypherConnector.loop; rw [hstep]; exact hst'⟩

end CertVerifier

namespace CertVerifier

/-- Python slicing `s[4:]` on a string that starts with eight fixed hex
characters removes only the first four of them. -/
theorem drop_four_append (h : String) : ("00000000" ++ h).drop 4 = "0000" ++ h := by
  apply String.ext
  rw [String.drop_eq, String.data_append, String.data_append]
  have h8 : "00000000".data = ['0', '0', '0', '0', '0', '0', '0', '0'] := rfl
  have h4 : "0000".data = ['0', '0', '0', '0'] := rfl
  rw [h8, h4]
  simp

/-- Appending to a non-empty string never yields the empty string. -/
theorem append_ne_empty_of_ne (p h : String) (hp : ¬ p.data = []) : ¬ (p ++ h) = "" := by
  intro he
  have hd := congrArg String.data he
  rw [String.data_append] at hd
  exact hp (List.append_eq_nil.mp hd).1

/-- The parse epilogue on a loop that ended with a non-empty script. -/
theorem finishParse_some (rv : List (Option String)) (s : String) (hs : ¬ s = "") :
    finishParse (.ok (rv, some s)) = .ok ⟨rv, s⟩ := by
  simp [finishParse, hs]

/-- The parse epilogue on any loop state whose script component is unset. -/
theorem finishParse_snd_none (st : LoopState) (h : st.2 = none) :
    finishParse (.ok st) =
      .error (.invalidTransaction "transaction response is missing op_return script") := by
  rw [← Prod.mk.eta (p := st), h]
  exact finishParse_none st.1

/-- Any successful parse carries a non-empty script. -/
theorem finishParse_ok_script_ne (r : Except PyErr LoopState) (t : TransactionData)
    (h : finishParse r = .ok t) : ¬ t.script = "" := by
  obtain ⟨rv, s, _, hs, rfl⟩ := (finishParse_ok_iff r t).mp h
  exact hs

/-- Provider B's spent test passes exactly when `is_spent` is present and
numerically equal to 49. -/
theorem spentCheck_iff (o : BOut) :
    BlockrIOConnector.spentCheck o = true ↔ o.is_spent = some 49 := by
  unfold BlockrIOConnector.spentCheck truthyOptRat
  cases o.is_spent with
  | none => simp
  | some x =>
    simp only [Bool.and_eq_true, bne_iff_ne, ne_eq, decide_eq_true_eq, Option.some.injEq]
    constructor
    · rintro ⟨_, rfl⟩
      rfl
    · rintro rfl
      exact ⟨by norm_num, rfl⟩

/-- C1: claimed as stated, parsing provider A's documented example response
would give `embedded_script = "00aabbcc"` (eight hex characters stripped);
the code in fact strips only four characters and returns `"6f7000aabbcc"`. -/
theorem C1_strip_counterexample :
    BlockchainInfoConnector.parse_tx
      ⟨[⟨some 0, some "6a066f7000aabbcc", none, none⟩,
        ⟨some 1000, none, some true, some "1ABC"⟩]⟩ =
      .ok ⟨[some "1ABC"], "6f7000aabbcc"⟩ ∧
    ("6f7000aabbcc" : String) ≠ "00aabbcc" := by
  constructor
  · rfl
  · decide

/-- C1 (amended): providers A and B strip a fixed prefix of four hex
characters (two bytes) from the zero-value output's script, so a script
`"00000000<hex>"` yields `embedded_script = "0000<hex>"`; provider C copies
`data_hex` without stripping anything; and provider A's documented example
yields `revoked = {"1ABC"}` with `embedded_script = "6f7000aabbcc"`. -/
theorem C1_strip_four_hex (h : String) :
    BlockchainInfoConnector.parse_tx ⟨[⟨some 0, some ("00000000" ++ h), none, none⟩]⟩ =
      .ok ⟨[], "0000" ++ h⟩ ∧
    BlockrIOConnector.parse_tx ⟨⟨[⟨some 0, some ⟨some ("00000000" ++ h)⟩, none, none⟩]⟩⟩ =
      .ok ⟨[], "0000" ++ h⟩ ∧
    BlockcypherConnector.parse_tx ⟨[⟨some 0, some ("00000000" ++ h), none, none⟩]⟩ =
      .ok ⟨[], "00000000" ++ h⟩ ∧
    BlockchainInfoConnector.parse_tx
      ⟨[⟨some 0, some "6a066f7000aabbcc", none, none⟩,
        ⟨some 1000, none, some true, some "1ABC"⟩]⟩ =
      .ok ⟨[some "1ABC"], "6f7000aabbcc"⟩ := by
  refine ⟨?_, ?_, ?_, rfl⟩
  · show finishParse (.ok ([], some (("00000000" ++ h).drop 4))) = .ok ⟨[], "0000" ++ h⟩
    rw [drop_four_append]
    exact finishParse_some _ _ (append_ne_empty_of_ne "0000" h (by decide))
  · show finishParse (.ok ([], some (("00000000" ++ h).drop 4))) = .ok ⟨[], "0000" ++ h⟩
    rw [drop_four_append]
    exact finishParse_some _ _ (append_ne_empty_of_ne "0000" h (by decide))
  · show finishParse (.ok ([], some ("00000000" ++ h))) = .ok ⟨[], "00000000" ++ h⟩
    exact finishParse_some _ _ (append_ne_empty_of_ne "00000000" h (by decide))

/-- C5: fetch_tx on any status code other than 200 raises
`InvalidTransactionError` whose message carries the transaction id,
regardless of the body; on status 200 it returns the JSON-decoded body. -/
theorem C5_fetch_status (J : Type) (txid : String) (r : HttpResponse J) :
    (r.status_code ≠ 200 →
      fetch_tx txid r = .error (.invalidTransaction ("error looking up transaction_id=" ++ txid))) ∧
    (r.status_code = 200 → fetch_tx txid r = r.json) := by
  constructor
  · intro hne
    unfold fetch_tx
    rw [if_pos hne]
  · intro heq
    unfold fetch_tx
    rw [if_neg (by rw [heq]; exact fun hc => hc rfl)]

/-- C5 witness: a 404 response fails with the transaction id in the error
message and a 200 response returns its decoded body. -/
theorem C5_fetch_status_witness :
    fetch_tx "deadbeef" ({ status_code := 404, json := .ok 7 } : HttpResponse Nat) =
      .error (.invalidTransaction "error looking up transaction_id=deadbeef") ∧
    fetch_tx "deadbeef" ({ status_code := 200, json := .ok 7 } : HttpResponse Nat) = .ok 7 := by
  constructor
  · have := (C5_fetch_status Nat "deadbeef" ⟨404, .ok 7⟩).1 (by decide)
    exact this
  · have := (C5_fetch_status Nat "deadbeef" ⟨200, .ok 7⟩).2 rfl
    exact this

/-- C6: providers B and C accept both mainnet and testnet, fixing a distinct
URL template per network, while provider A rejects testnet at construction
time with a generic `Exception`. -/
theorem C6_network_support :
    BlockrIOConnector.init .mainnet = .ok "https://btc.blockr.io/api/v1/tx/info/%s" ∧
    BlockrIOConnector.init .testnet = .ok "https://tbtc.blockr.io/api/v1/tx/info/%s" ∧
    ("https://btc.blockr.io/api/v1/tx/info/%s" : String) ≠
      "https://tbtc.blockr.io/api/v1/tx/info/%s" ∧
    BlockcypherConnector.init .mainnet =
      .ok "https://api.blockcypher.com/v1/btc/main/txs/%s?limit=100" ∧
    BlockcypherConnector.init .testnet =
      .ok "http://api.blockcypher.com/v1/btc/test3/txs/%s?limit=100" ∧
    ("https://api.blockcypher.com/v1/btc/main/txs/%s?limit=100" : String) ≠
      "http://api.blockcypher.com/v1/btc/test3/txs/%s?limit=100" ∧
    BlockchainInfoConnector.init .testnet =
      .error (.exception "only mainnet chain is supported with blockchain.info collector") := by
  refine ⟨rfl, rfl, ?_, rfl, rfl, ?_, rfl⟩ <;> decide

/-- C9: parse_tx is a pure function of the raw response: threading the
connector object through two successive calls on the same response yields
equal results, and the connector state is unchanged. -/
theorem C9_parse_idempotent (c : Connector) (ra : AResp) (rb : BResp) (rc : CResp) :
    ((methodParseA c ra).1 = (methodParseA (methodParseA c ra).2 ra).1 ∧
      (methodParseA c ra).2 = c) ∧
    ((methodParseB c rb).1 = (methodParseB (methodParseB c rb).2 rb).1 ∧
      (methodParseB c rb).2 = c) ∧
    ((methodParseC c rc).1 = (methodParseC (methodParseC c rc).2 rc).1 ∧
      (methodParseC c rc).2 = c) :=
  ⟨⟨rfl, rfl⟩, ⟨rfl, rfl⟩, ⟨rfl, rfl⟩⟩

/-- C2: for each provider, a successfully parsed response's
`revoked_addresses` contains exactly the addresses of non-zero-value outputs
whose provider-specific spent indicator passes; outputs whose indicator is
absent or fails contribute nothing. -/
theorem C2_revoked_spent_iff :
    (∀ (resp : AResp) (t : TransactionData), BlockchainInfoConnector.parse_tx resp = .ok t →
      ∀ x, x ∈ t.revoked_addresses ↔
        ∃ o ∈ resp.out, ¬ o.value.getD 1 = 0 ∧ truthyOptBool o.spent = true ∧ o.addr = x) ∧
    (∀ (resp : BResp) (t : TransactionData), BlockrIOConnector.parse_tx resp = .ok t →
      ∀ x, x ∈ t.revoked_addresses ↔
        ∃ o ∈ resp.data.vouts, ¬ o.amount.getD 1 = 0 ∧ BlockrIOConnector.spentCheck o = true ∧
          o.address = x) ∧
    (∀ (resp : CResp) (t : TransactionData), BlockcypherConnector.parse_tx resp = .ok t →
      ∀ x, x ∈ t.revoked_addresses ↔
        ∃ o ∈ resp.outputs, ¬ o.value.getD 1 = 0 ∧ truthyOptStr o.spent_by = true ∧
          ∃ a tl, o.addresses = some (a :: tl) ∧ some a = x) := by
  refine ⟨?_, ?_, ?_⟩
  · intro resp t h x
    obtain ⟨rv, s, hloop, hs, rfl⟩ := (finishParse_ok_iff _ _).mp h
    have hmem := ALoop_revoked_mem resp.out ([], none) (rv, some s) hloop x
    simpa using hmem
  · intro resp t h x
    obtain ⟨rv, s, hloop, hs, rfl⟩ := (finishParse_ok_iff _ _).mp h
    have hmem := BLoop_revoked_mem resp.data.vouts ([], none) (rv, some s) hloop x
    simpa using hmem
  · intro resp t h x
    obtain ⟨rv, s, hloop, hs, rfl⟩ := (finishParse_ok_iff _ _).mp h
    have hmem := CLoop_revoked_mem resp.outputs ([], none) (rv, some s) hloop x
    simpa using hmem

/-- C2 witness: provider A on a response with one spent non-zero output and
one zero-value output. -/
theorem C2_revoked_spent_iff_witness :
    some "1W" ∈ TransactionData.revoked_addresses ⟨[some "1W"], "cafe"⟩ ↔
      ∃ o ∈ ([⟨some 7, none, some true, some "1W"⟩,
              ⟨some 0, some "6a05cafe", none, none⟩] : List AOut),
        ¬ o.value.getD 1 = 0 ∧ truthyOptBool o.spent = true ∧ o.addr = some "1W" :=
  C2_revoked_spent_iff.1
    ⟨[⟨some 7, none, some true, some "1W"⟩, ⟨some 0, some "6a05cafe", none, none⟩]⟩
    ⟨[some "1W"], "cafe"⟩ rfl (some "1W")

/-- C3: provider B adds a non-zero-amount output's address to
`revoked_addresses` exactly when `is_spent` is present and numerically equal
to 49; any other value of `is_spent` (absent, 0, 1, ...) excludes it. -/
theorem C3_blockr_spent_eq_49 :
    ∀ (resp : BResp) (t : TransactionData), BlockrIOConnector.parse_tx resp = .ok t →
      ∀ x, x ∈ t.revoked_addresses ↔
        ∃ o ∈ resp.data.vouts, ¬ o.amount.getD 1 = 0 ∧ o.is_spent = some 49 ∧
          o.address = x := by
  intro resp t h x
  obtain ⟨rv, s, hloop, hs, rfl⟩ := (finishParse_ok_iff _ _).mp h
  have hmem := BLoop_revoked_mem resp.data.vouts ([], none) (rv, some s) hloop x
  simp only [spentCheck_iff] at hmem
  simpa using hmem

/-- C3 witness: is_spent = 49 puts the output's address into the revoked
set of provider B's parse. -/
theorem C3_blockr_spent_eq_49_witness :
    some "bX" ∈ TransactionData.revoked_addresses ⟨[some "bX"], "beef"⟩ ↔
      ∃ o ∈ ([⟨some 3, none, some 49, some "bX"⟩,
              ⟨some 0, some ⟨some "6a04beef"⟩, none, none⟩] : List BOut),
        ¬ o.amount.getD 1 = 0 ∧ o.is_spent = some 49 ∧ o.address = some "bX" :=
  C3_blockr_spent_eq_49
    ⟨⟨[⟨some 3, none, some 49, some "bX"⟩, ⟨some 0, some ⟨some "6a04beef"⟩, none, none⟩]⟩⟩
    ⟨[some "bX"], "beef"⟩ rfl (some "bX")

/-- C4: claimed as stated, every provider raises `InvalidTransactionError`
on a response with no zero-value output; provider C instead hits the untyped
`TypeError` when such a response contains a truthy `spent_by` output whose
`addresses` field is missing. -/
theorem C4_counterexample :
    BlockcypherConnector.parse_tx ⟨[⟨some 7, none, some "spender", none⟩]⟩ =
      .error .typeError ∧
    isInvalidTransaction
      (BlockcypherConnector.parse_tx ⟨[⟨some 7, none, some "spender", none⟩]⟩) = false :=
  ⟨rfl, rfl⟩

/-- C4 (amended): on a response with no zero-value output, providers A and B
always raise `InvalidTransactionError`; provider C never succeeds either,
and raises `InvalidTransactionError` whenever no truthy-`spent_by` output
has a missing or empty `addresses` list (otherwise an untyped error escapes
first); and no provider ever returns a result with an empty or unset
embedded script. -/
theorem C4_no_zero_output :
    (∀ resp : AResp, (∀ o ∈ resp.out, ¬ o.value.getD 1 = 0) →
      BlockchainInfoConnector.parse_tx resp =
        .error (.invalidTransaction "transaction response is missing op_return script")) ∧
    (∀ resp : BResp, (∀ o ∈ resp.data.vouts, ¬ o.amount.getD 1 = 0) →
      BlockrIOConnector.parse_tx resp =
        .error (.invalidTransaction "transaction response is missing op_return script")) ∧
    (∀ resp : CResp, (∀ o ∈ resp.outputs, ¬ o.value.getD 1 = 0) →
      isOk (BlockcypherConnector.parse_tx resp) = false ∧
      ((∀ o ∈ resp.outputs, truthyOptStr o.spent_by = true →
          ∃ a tl, o.addresses = some (a :: tl)) →
        BlockcypherConnector.parse_tx resp =
          .error (.invalidTransaction "transaction response is missing op_return script"))) ∧
    (∀ (resp : AResp) (t : TransactionData),
      BlockchainInfoConnector.parse_tx resp = .ok t → ¬ t.script = "") ∧
    (∀ (resp : BResp) (t : TransactionData),
      BlockrIOConnector.parse_tx resp = .ok t → ¬ t.script = "") ∧
    (∀ (resp : CResp) (t : TransactionData),
      BlockcypherConnector.parse_tx resp = .ok t → ¬ t.script = "") := by
  refine ⟨?_, ?_, ?_, ?_, ?_, ?_⟩
  · intro resp hnz
    obtain ⟨st', hok⟩ := ALoop_ok_of_no_zero resp.out hnz ([], none)
    have hfil : resp.out.filter BlockchainInfoConnector.isZero = [] :=
      List.filter_eq_nil_iff.mpr
        (fun o ho => by simp [BlockchainInfoConnector.isZero, hnz o ho])
    rcases ALoop_script_last resp.out ([], none) st' hok with ⟨_, h2⟩ | ⟨o, s, hlast, _, _⟩
    · show finishParse (BlockchainInfoConnector.loop ([], none) resp.out) = _
      rw [hok]
      exact finishParse_snd_none st' h2
    · rw [hfil] at hlast
      cases hlast
  · intro resp hnz
    obtain ⟨st', hok⟩ := BLoop_ok_of_no_zero resp.data.vouts hnz ([], none)
    have hfil : resp.data.vouts.filter BlockrIOConnector.isZero = [] :=
      List.filter_eq_nil_iff.mpr
        (fun o ho => by simp [BlockrIOConnector.isZero, hnz o ho])
    rcases BLoop_script_last resp.data.vouts ([], none) st' hok with
      ⟨_, h2⟩ | ⟨o, ex, s, hlast, _, _, _⟩
    · show finishParse (BlockrIOConnector.loop ([], none) resp.data.vouts) = _
      rw [hok]
      exact finishParse_snd_none st' h2
    · rw [hfil] at hlast
      cases hlast
  · intro resp hnz
    have hfil : resp.outputs.filter BlockcypherConnector.isZero = [] :=
      List.filter_eq_nil_iff.mpr
        (fun o ho => by simp [BlockcypherConnector.isZero, hnz o ho])
    constructor
    · cases hl : BlockcypherConnector.loop ([], none) resp.outputs with
      | error e =>
        show isOk (finishParse (BlockcypherConnector.loop ([], none) resp.outputs)) = false
        rw [hl, finishParse_error]
        rfl
      | ok st' =>
        rcases CLoop_script_last resp.outputs ([], none) st' hl with
          ⟨_, h2⟩ | ⟨o, s, hlast, _, _⟩
        · show isOk (finishParse (BlockcypherConnector.loop ([], none) resp.outputs)) = false
          rw [hl, finishParse_snd_none st' h2]
          rfl
        · rw [hfil] at hlast
          cases hlast
    · intro hgood
      obtain ⟨st', hok⟩ := CLoop_ok_of_no_zero resp.outputs hnz hgood ([], none)
      rcases CLoop_script_last resp.outputs ([], none) st' hok with
        ⟨_, h2⟩ | ⟨o, s, hlast, _, _⟩
      · show finishParse (BlockcypherConnector.loop ([], none) resp.outputs) = _
        rw [hok]
        exact finishParse_snd_none st' h2
      · rw [hfil] at hlast
        cases hlast
  · intro resp t h
    exact finishParse_ok_script_ne _ t h
  · intro resp t h
    exact finishParse_ok_script_ne _ t h
  · intro resp t h
    exact finishParse_ok_script_ne _ t h

/-- C4 witness: concrete no-zero-output responses for each provider, plus a
non-empty-script conclusion on a successful parse. -/
theorem C4_no_zero_output_witness :
    BlockchainInfoConnector.parse_tx ⟨[⟨some 2, none, none, none⟩]⟩ =
      .error (.invalidTransaction "transaction response is missing op_return script") ∧
    BlockrIOConnector.parse_tx ⟨⟨[⟨some 2, none, none, none⟩]⟩⟩ =
      .error (.invalidTransaction "transaction response is missing op_return script") ∧
    isOk (BlockcypherConnector.parse_tx ⟨[⟨some 3, none, some "t", none⟩]⟩) = false ∧
    ¬ (TransactionData.script ⟨[], "aa"⟩ = "") :=
  ⟨C4_no_zero_output.1 ⟨[⟨some 2, none, none, none⟩]⟩ (by decide),
   C4_no_zero_output.2.1 ⟨⟨[⟨some 2, none, none, none⟩]⟩⟩ (by decide),
   (C4_no_zero_output.2.2.1 ⟨[⟨some 3, none, some "t", none⟩]⟩ (by decide)).1,
   C4_no_zero_output.2.2.2.1 ⟨[⟨some 0, some "6a02aa", none, none⟩]⟩ ⟨[], "aa"⟩ rfl⟩

/-- C7: on a successful parse the embedded script is derived from the last
zero-value output in the output list's iteration order, for each provider
(with provider-specific extraction: script[4:], extras.script[4:],
data_hex). -/
theorem C7_last_zero_wins :
    (∀ (resp : AResp) (t : TransactionData), BlockchainInfoConnector.parse_tx resp = .ok t →
      ∃ o s, (resp.out.filter BlockchainInfoConnector.isZero).getLast? = some o ∧
        o.script = some s ∧ t.script = s.drop 4) ∧
    (∀ (resp : BResp) (t : TransactionData), BlockrIOConnector.parse_tx resp = .ok t →
      ∃ o ex s, (resp.data.vouts.filter BlockrIOConnector.isZero).getLast? = some o ∧
        o.extras = some ex ∧ ex.script = some s ∧ t.script = s.drop 4) ∧
    (∀ (resp : CResp) (t : TransactionData), BlockcypherConnector.parse_tx resp = .ok t →
      ∃ o s, (resp.outputs.filter BlockcypherConnector.isZero).getLast? = some o ∧
        o.data_hex = some s ∧ t.script = s) := by
  refine ⟨?_, ?_, ?_⟩
  · intro resp t h
    obtain ⟨rv, s, hloop, hs, rfl⟩ := (finishParse_ok_iff _ _).mp h
    rcases ALoop_script_last resp.out ([], none) (rv, some s) hloop with
      ⟨_, h2⟩ | ⟨o, s', hlast, hsc, h2⟩
    · simp at h2
    · simp only at h2
      injection h2 with h2
      exact ⟨o, s', hlast, hsc, h2⟩
  · intro resp t h
    obtain ⟨rv, s, hloop, hs, rfl⟩ := (finishParse_ok_iff _ _).mp h
    rcases BLoop_script_last resp.data.vouts ([], none) (rv, some s) hloop with
      ⟨_, h2⟩ | ⟨o, ex, s', hlast, hex, hsc, h2⟩
    · simp at h2
    · simp only at h2
      injection h2 with h2
      exact ⟨o, ex, s', hlast, hex, hsc, h2⟩
  · intro resp t h
    obtain ⟨rv, s, hloop, hs, rfl⟩ := (finishParse_ok_iff _ _).mp h
    rcases CLoop_script_last resp.outputs ([], none) (rv, some s) hloop with
      ⟨_, h2⟩ | ⟨o, s', hlast, hdx, h2⟩
    · simp at h2
    · simp only at h2
      injection h2 with h2
      exact ⟨o, s', hlast, hdx, h2⟩

/-- C7 witness: with two zero-value outputs, provider A's parse keeps the
script of the second (last) one. -/
theorem C7_last_zero_wins_witness :
    ∃ o s, (([⟨some 0, some "aaaa1111", none, none⟩,
              ⟨some 0, some "bbbb2222", none, none⟩] : List AOut).filter
        BlockchainInfoConnector.isZero).getLast? = some o ∧
      o.script = some s ∧ TransactionData.script ⟨[], "2222"⟩ = s.drop 4 :=
  C7_last_zero_wins.1
    ⟨[⟨some 0, some "aaaa1111", none, none⟩, ⟨some 0, some "bbbb2222", none, none⟩]⟩
    ⟨[], "2222"⟩ rfl

/-- C8: an output record lacking its value field behaves exactly like one
with value 1: it is never the anchoring output, and processing it never
changes the script component of the loop state, for each provider. -/
theorem C8_missing_value_default :
    (∀ (st : LoopState) (sc : Option String) (sp : Option Bool) (ad : Option String),
      BlockchainInfoConnector.step st ⟨none, sc, sp, ad⟩ =
        BlockchainInfoConnector.step st ⟨some 1, sc, sp, ad⟩ ∧
      ∀ st', BlockchainInfoConnector.step st ⟨none, sc, sp, ad⟩ = .ok st' → st'.2 = st.2) ∧
    (∀ (st : LoopState) (ex : Option BExtras) (isp : Option Rat) (ad : Option String),
      BlockrIOConnector.step st ⟨none, ex, isp, ad⟩ =
        BlockrIOConnector.step st ⟨some 1, ex, isp, ad⟩ ∧
      ∀ st', BlockrIOConnector.step st ⟨none, ex, isp, ad⟩ = .ok st' → st'.2 = st.2) ∧
    (∀ (st : LoopState) (dh : Option String) (sb : Option String) (ads : Option (List String)),
      BlockcypherConnector.step st ⟨none, dh, sb, ads⟩ =
        BlockcypherConnector.step st ⟨some 1, dh, sb, ads⟩ ∧
      ∀ st', BlockcypherConnector.step st ⟨none, dh, sb, ads⟩ = .ok st' → st'.2 = st.2) := by
  refine ⟨?_, ?_, ?_⟩
  · intro st sc sp ad
    refine ⟨rfl, ?_⟩
    intro st' h
    rcases AStep_cases st ⟨none, sc, sp, ad⟩ with ⟨hz, _⟩ | ⟨_, hcase⟩
    · simp at hz
    · rcases hcase with ⟨_, hstep⟩ | ⟨_, hstep⟩ <;>
        · rw [hstep] at h
          injection h with h
          subst h
          rfl
  · intro st ex isp ad
    refine ⟨rfl, ?_⟩
    intro st' h
    rcases BStep_cases st ⟨none, ex, isp, ad⟩ with ⟨hz, _⟩ | ⟨_, hcase⟩
    · simp at hz
    · rcases hcase with ⟨_, hstep⟩ | ⟨_, hstep⟩ <;>
        · rw [hstep] at h
          injection h with h
          subst h
          rfl
  · intro st dh sb ads
    refine ⟨rfl, ?_⟩
    intro st' h
    rcases CStep_cases st ⟨none, dh, sb, ads⟩ with ⟨hz, _⟩ | ⟨_, hcase⟩
    · simp at hz
    · rcases hcase with ⟨_, hcase⟩ | ⟨_, hstep⟩
      · rcases hcase with ⟨_, hstep⟩ | ⟨_, hstep⟩ | ⟨a, tl, _, hstep⟩
        · rw [hstep] at h
          cases h
        · rw [hstep] at h
          cases h
        · rw [hstep] at h
          injection h with h
          subst h
          rfl
      · rw [hstep] at h
        injection h with h
        subst h
        rfl

/-- C8 witness: a provider-A output with no value field and a truthy spent
flag adds to the revoked set but leaves the script state untouched. -/
theorem C8_missing_value_default_witness :
    BlockchainInfoConnector.step ([], some "keep") ⟨none, some "zzz", some true, some "1X"⟩ =
      BlockchainInfoConnector.step ([], some "keep") ⟨some 1, some "zzz", some true, some "1X"⟩ ∧
    ((pySetAdd [] (some "1X"), some "keep") : LoopState).2 =
      (([], some "keep") : LoopState).2 :=
  ⟨(C8_missing_value_default.1 ([], some "keep") (some "zzz") (some true) (some "1X")).1,
   (C8_missing_value_default.1 ([], some "keep") (some "zzz") (some true) (some "1X")).2
     (pySetAdd [] (some "1X"), some "keep") rfl⟩

/-- C10: a provider-C response with a non-zero-value output that has a
truthy spent_by but no addresses field never parses successfully and never
surfaces the typed `InvalidTransactionError` (the failure is an untyped
Python error); and a provider-A non-zero-value output with a truthy spent
flag but no addr field puts the placeholder `None` into the revoked set. -/
theorem C10_spent_missing_fields :
    (∀ (resp : CResp), ∀ o ∈ resp.outputs, ¬ o.value.getD 1 = 0 →
      truthyOptStr o.spent_by = true → o.addresses = none →
        isOk (BlockcypherConnector.parse_tx resp) = false ∧
        isInvalidTransaction (BlockcypherConnector.parse_tx resp) = false) ∧
    (∀ (resp : AResp) (t : TransactionData), BlockchainInfoConnector.parse_tx resp = .ok t →
      ∀ o ∈ resp.out, ¬ o.value.getD 1 = 0 → truthyOptBool o.spent = true →
        o.addr = none → none ∈ t.revoked_addresses) := by
  constructor
  · intro resp o ho hz hsp hadr
    cases hl : BlockcypherConnector.loop ([], none) resp.outputs with
    | ok st' =>
      obtain ⟨a, tl, ha⟩ := CLoop_ok_spent_addresses resp.outputs ([], none) st' hl o ho hz hsp
      rw [hadr] at ha
      cases ha
    | error e =>
      have hE : BlockcypherConnector.parse_tx resp = .error e := by
        show finishParse (BlockcypherConnector.loop ([], none) resp.outputs) = .error e
        rw [hl, finishParse_error]
      rw [hE]
      rcases CLoop_error_untyped resp.outputs ([], none) e hl with rfl | rfl | ⟨k, rfl⟩
      · exact ⟨rfl, rfl⟩
      · exact ⟨rfl, rfl⟩
      · exact ⟨rfl, rfl⟩
  · intro resp t h o ho hz hsp hadr
    obtain ⟨rv, s, hloop, hs, rfl⟩ := (finishParse_ok_iff _ _).mp h
    have hmem := ALoop_revoked_mem resp.out ([], none) (rv, some s) hloop none
    exact hmem.mpr (Or.inr ⟨o, ho, hz, hsp, hadr⟩)

/-- C10 witness: concrete instances of both behaviors. -/
theorem C10_spent_missing_fields_witness :
    (isOk (BlockcypherConnector.parse_tx ⟨[⟨some 9, none, some "abc", none⟩]⟩) = false ∧
     isInvalidTransaction
       (BlockcypherConnector.parse_tx ⟨[⟨some 9, none, some "abc", none⟩]⟩) = false) ∧
    none ∈ TransactionData.revoked_addresses ⟨[none], "ff"⟩ :=
  ⟨C10_spent_missing_fields.1 ⟨[⟨some 9, none, some "abc", none⟩]⟩
     ⟨some 9, none, some "abc", none⟩ (by decide) (by decide) (by decide) rfl,
   C10_spent_missing_fields.2
     ⟨[⟨some 4, none, some true, none⟩, ⟨some 0, some "6a01ff", none, none⟩]⟩
     ⟨[none], "ff"⟩ rfl ⟨some 4, none, some true, none⟩ (by decide) (by decide)
     (by decide) rfl⟩

end CertVerifier
